import Mathlib

/-!
Shallow embedding of the `speicher` persistent-collection library
(list.go, map.go, save.go) and proofs about its specified behaviour.

Conventions of the embedding:
* Go errors are an inductive `GoError`; each `fmt.Errorf` call site in the
  source gets its own constructor, `errors.Join` is `GoError.join`.
* Runtime panics (out-of-range slice indexing, closing a closed channel)
  are modelled explicitly: `Option.none` results or a `panicked` flag.
* `time.Timer` values are modelled by the data the scheduler observes of
  them: the `sync.Once` their callback captured, their deadline, and
  whether they are still pending (`Timer.Reset` returns this flag).
* `sync.Once` objects are named by allocation numbers (`nextOnce`); the
  set of already-used once objects is `usedOnces`, and `Once.Do` of a
  used once is a no-op, which is exactly Go semantics.
* Filesystem and JSON effects of `Save`/`Load` are supplied as explicit
  outcome records (`SaveFs`, `LoadFs`); invoking `os.MkdirAll` is
  reported in an effect flag so bootstrap behaviour is observable.
-/

/-- Go error values as built by the source: one constructor per
`fmt.Errorf` site, `join` for `errors.Join`, `io` for operating-system
errors coming in from outside. -/
inductive GoError : Type where
  | indexOutOfRange : GoError
  | failedToOpenFile (location : String) : GoError
  | failedToEncodeJsonFile (location : String) : GoError
  | failedToDecodeJsonFile (location : String) : GoError
  | unableToLoadList (location : String) : GoError
  | unableToLoadMap (location : String) : GoError
  | unableToFindLoader (location : String) : GoError
  | io (code : Nat) : GoError
  | join (e1 e2 : GoError) : GoError
deriving DecidableEq, Repr

/-- What the scheduler observes of a `*time.Timer` made by
`time.AfterFunc`: which `sync.Once` its callback captured, when it is due,
and whether it is still pending (`Reset` reports this). -/
structure Timer where
  onceId : Nat
  deadline : Nat
  pending : Bool
deriving DecidableEq, Repr

/-- The per-collection scheduler fields of `memoryList`/`memoryMap`
(`saveTimer`, `maxSaveTimer`, `saveOnce`) plus the bookkeeping that makes
`sync.Once` and `Save` observable: allocation counter for once objects,
the once objects already consumed by `Once.Do`, and how often `Save` ran. -/
structure SchedState where
  saveTimer : Option Timer
  maxSaveTimer : Option Timer
  saveOnce : Option Nat
  nextOnce : Nat
  usedOnces : List Nat
  saveCount : Nat
deriving DecidableEq, Repr

/-- Zero value of the scheduler fields: all three pointers nil. -/
def SchedState.init : SchedState :=
  { saveTimer := none, maxSaveTimer := none, saveOnce := none
    nextOnce := 0, usedOnces := [], saveCount := 0 }

/-- `const debounceDelay = 2 * time.Second` (in seconds). -/
def debounceDelay : Nat := 2

/-- `const maxDelay = 10 * time.Second` (in seconds). -/
def maxDelay : Nat := 10

/-- First block of `notifyChanged`: make sure a `sync.Once` exists for the
current burst, allocating a fresh one if the field is nil. Returns the
once the callback will capture together with the updated state. -/
def ensureOnce (s : SchedState) : Nat × SchedState :=
  match s.saveOnce with
  | some o => (o, s)
  | none =>
      (s.nextOnce,
       { s with saveOnce := some s.nextOnce, nextOnce := s.nextOnce + 1 })

/-- Debounce-timer block of `notifyChanged`: reset an existing pending
timer to `now + debounceDelay`; if the timer already fired or is firing
(`Reset` returned false), or no timer exists, arm a fresh
`time.AfterFunc(debounceDelay, callback)` whose callback captures the
current once `oid`. -/
def armDebounce (now oid : Nat) (s : SchedState) : SchedState :=
  match s.saveTimer with
  | some t =>
      if t.pending then
        { s with saveTimer := some { t with deadline := now + debounceDelay } }
      else
        { s with saveTimer := some ⟨oid, now + debounceDelay, true⟩ }
  | none => { s with saveTimer := some ⟨oid, now + debounceDelay, true⟩ }

/-- Max-delay block of `notifyChanged`: started only once per burst; if the
field already holds a timer nothing happens. -/
def armMaxDelay (now oid : Nat) (s : SchedState) : SchedState :=
  match s.maxSaveTimer with
  | some _ => s
  | none => { s with maxSaveTimer := some ⟨oid, now + maxDelay, true⟩ }

/-- `notifyChanged` from save.go: ensure a once, arm or reset the debounce
timer, arm the max-delay timer if absent. -/
def notifyChanged (now : Nat) (s : SchedState) : SchedState :=
  armMaxDelay now (ensureOnce s).1 (armDebounce now (ensureOnce s).1 (ensureOnce s).2)

/-- The timer `callback` from save.go, executed when a deadline with
captured once `oid` elapses: `once.Do` runs the body only if `oid` was
never consumed; the body clears all three scheduler fields and then calls
`Save` (counted in `saveCount`). A second elapse with the same once is a
no-op. -/
def fireCallback (oid : Nat) (s : SchedState) : SchedState :=
  if s.usedOnces.contains oid then s
  else
    { s with
      usedOnces := oid :: s.usedOnces
      saveTimer := none
      maxSaveTimer := none
      saveOnce := none
      saveCount := s.saveCount + 1 }

/-- A burst tail: further `notifyChanged` calls at the given times. -/
def burstNotify (times : List Nat) (s : SchedState) : SchedState :=
  times.foldl (fun st now => notifyChanged now st) s

/-- Sequential model of `sync.RWMutex`: writer flag and reader count. -/
structure RWLock where
  writer : Bool
  readers : Nat
deriving DecidableEq, Repr

/-- Zero value of the mutex. -/
def RWLock.init : RWLock := { writer := false, readers := 0 }

def RWLock.lock (l : RWLock) : RWLock := { l with writer := true }

def RWLock.unlock (l : RWLock) : RWLock := { l with writer := false }

def RWLock.rlock (l : RWLock) : RWLock := { l with readers := l.readers + 1 }

def RWLock.runlock (l : RWLock) : RWLock := { l with readers := l.readers - 1 }

/-- `memoryList[T]`: the slice, the backing location, the data mutex and
the scheduler fields (the scheduler fields' own `timerMut` is implicit in
the sequential model). -/
structure MemoryList (T : Type) where
  data : List T
  location : String
  mtx : RWLock
  sched : SchedState

/-- `&memoryList[T]{location: location, data: make([]T, 0)}`. -/
def emptyMemoryList (T : Type) (location : String) : MemoryList T :=
  { data := [], location := location, mtx := RWLock.init, sched := SchedState.init }

/-- Go slice indexing `xs[i]` with an `int` index: `none` is the runtime
panic on an out-of-range index. -/
def goIndex {T : Type} (xs : List T) (i : Int) : Option T :=
  if 0 ≤ i ∧ i < (xs.length : Int) then xs.get? i.toNat else none

/-- `memoryList.Get` exactly as written in list.go: the bounds test is
`index < 0 || index >= len(l.data)` and the branch that reads
`l.data[index]` (panicking, `none`) is the out-of-range branch, while the
in-range branch leaves `value` at its zero value with `found = false`. -/
def MemoryList.Get {T : Type} [Inhabited T] (l : MemoryList T) (index : Int) :
    Option (T × Bool) :=
  if index < 0 ∨ (l.data.length : Int) ≤ index then
    match goIndex l.data index with
    | some v => some (v, true)
    | none => none
  else
    some (default, false)

/-- `memoryList.Append`. -/
def MemoryList.Append {T : Type} (l : MemoryList T) (value : T) : MemoryList T :=
  { l with data := l.data ++ [value] }

/-- `memoryList.AppendUnique`: scan with the caller-supplied equality,
return false and leave the list unchanged on a hit, otherwise append and
return true. -/
def MemoryList.AppendUnique {T : Type} (l : MemoryList T) (value : T)
    (equal : T → T → Bool) : MemoryList T × Bool :=
  if l.data.any (fun x => equal x value) then (l, false)
  else ({ l with data := l.data ++ [value] }, true)

/-- `memoryList.Set`: out-of-range yields the `index out of range` error,
otherwise the element is overwritten in place. -/
def MemoryList.Set {T : Type} (l : MemoryList T) (index : Int) (value : T) :
    MemoryList T × Option GoError :=
  if index < 0 ∨ (l.data.length : Int) ≤ index then
    (l, some GoError.indexOutOfRange)
  else
    ({ l with data := l.data.set index.toNat value }, none)

/-- `memoryList.Overwrite`. -/
def MemoryList.Overwrite {T : Type} (l : MemoryList T) (values : List T) :
    MemoryList T :=
  { l with data := values }

/-- `memoryList.Len`. -/
def MemoryList.Len {T : Type} (l : MemoryList T) : Nat := l.data.length

/-- `memoryList.Find`. -/
def MemoryList.Find {T : Type} [Inhabited T] (l : MemoryList T) (f : T → Bool) :
    T × Bool :=
  match l.data.find? f with
  | some v => (v, true)
  | none => (default, false)

/-- `memoryList.FindAll`. -/
def MemoryList.FindAll {T : Type} (l : MemoryList T) (f : T → Bool) : List T :=
  l.data.filter f

/-- `memoryList.Lock`. -/
def MemoryList.Lock {T : Type} (l : MemoryList T) : MemoryList T :=
  { l with mtx := l.mtx.lock }

/-- `memoryList.Unlock`: release the data mutex, then `notifyChanged(l)`. -/
def MemoryList.Unlock {T : Type} (now : Nat) (l : MemoryList T) : MemoryList T :=
  let released := { l with mtx := l.mtx.unlock }
  { released with sched := notifyChanged now released.sched }

/-- `memoryList.RLock`. -/
def MemoryList.RLock {T : Type} (l : MemoryList T) : MemoryList T :=
  { l with mtx := l.mtx.rlock }

/-- `memoryList.RUnlock`: release the read lock, nothing else. -/
def MemoryList.RUnlock {T : Type} (l : MemoryList T) : MemoryList T :=
  { l with mtx := l.mtx.runlock }

/-- Outcome record for the filesystem and JSON effects of `Save`:
the error of `os.Create` and the error of `Encoder.Encode`, if any. -/
structure SaveFs where
  createErr : Option GoError
  encodeErr : Option GoError

/-- `memoryList.Save`: `RLock`, deferred `RUnlock` (running on every
return path), `os.Create`, `Encoder.Encode`, with the error wrapping of
the source. The scheduler fields are never touched. -/
def MemoryList.Save {T : Type} (fs : SaveFs) (l : MemoryList T) :
    MemoryList T × Option GoError :=
  let locked := MemoryList.RLock l
  let released := MemoryList.RUnlock locked
  match fs.createErr with
  | some e =>
      (released, some (GoError.join (GoError.failedToOpenFile l.location) e))
  | none =>
      match fs.encodeErr with
      | some e =>
          (released,
           some (GoError.join (GoError.failedToEncodeJsonFile l.location) e))
      | none => (released, none)

/-- Go map `map[string]T` as an association list in insertion order
(iteration order of a Go map is unspecified anyway). -/
def mapLookup {T : Type} (d : List (String × T)) (k : String) : Option T :=
  (d.find? (fun p => p.1 == k)).map (fun p => p.2)

/-- `m.data[key] = value`: overwrite the binding if the key is present,
otherwise add it. -/
def mapInsert {T : Type} (d : List (String × T)) (k : String) (v : T) :
    List (String × T) :=
  if (d.find? (fun p => p.1 == k)).isSome then
    d.map (fun p => if p.1 == k then (k, v) else p)
  else d ++ [(k, v)]

/-- `memoryMap[T]`: the map, the backing location, the data mutex and the
scheduler fields. -/
structure MemoryMap (T : Type) where
  data : List (String × T)
  location : String
  mtx : RWLock
  sched : SchedState

/-- `&memoryMap[T]{data: make(map[string]T), location: location}`. -/
def emptyMemoryMap (T : Type) (location : String) : MemoryMap T :=
  { data := [], location := location, mtx := RWLock.init, sched := SchedState.init }

/-- `memoryMap.Get`: comma-ok map read. -/
def MemoryMap.Get {T : Type} [Inhabited T] (m : MemoryMap T) (key : String) :
    T × Bool :=
  match mapLookup m.data key with
  | some v => (v, true)
  | none => (default, false)

/-- `memoryMap.Has`. -/
def MemoryMap.Has {T : Type} (m : MemoryMap T) (key : String) : Bool :=
  (mapLookup m.data key).isSome

/-- `memoryMap.Set`: insert or overwrite, never fails. -/
def MemoryMap.Set {T : Type} (m : MemoryMap T) (key : String) (value : T) :
    MemoryMap T :=
  { m with data := mapInsert m.data key value }

/-- `memoryMap.Overwrite`. -/
def MemoryMap.Overwrite {T : Type} (m : MemoryMap T) (values : List (String × T)) :
    MemoryMap T :=
  { m with data := values }

/-- `memoryMap.Lock`. -/
def MemoryMap.Lock {T : Type} (m : MemoryMap T) : MemoryMap T :=
  { m with mtx := m.mtx.lock }

/-- `memoryMap.Unlock`: release the data mutex, then `notifyChanged(m)`. -/
def MemoryMap.Unlock {T : Type} (now : Nat) (m : MemoryMap T) : MemoryMap T :=
  let released := { m with mtx := m.mtx.unlock }
  { released with sched := notifyChanged now released.sched }

/-- `memoryMap.RLock`. -/
def MemoryMap.RLock {T : Type} (m : MemoryMap T) : MemoryMap T :=
  { m with mtx := m.mtx.rlock }

/-- `memoryMap.RUnlock`: release the read lock, nothing else. -/
def MemoryMap.RUnlock {T : Type} (m : MemoryMap T) : MemoryMap T :=
  { m with mtx := m.mtx.runlock }

/-- `memoryMap.Save`: same shape as the list version. -/
def MemoryMap.Save {T : Type} (fs : SaveFs) (m : MemoryMap T) :
    MemoryMap T × Option GoError :=
  let locked := MemoryMap.RLock m
  let released := MemoryMap.RUnlock locked
  match fs.createErr with
  | some e =>
      (released, some (GoError.join (GoError.failedToOpenFile m.location) e))
  | none =>
      match fs.encodeErr with
      | some e =>
          (released,
           some (GoError.join (GoError.failedToEncodeJsonFile m.location) e))
      | none => (released, none)

/-- Observable state of one `Range`-style iteration: what has been
delivered on `ch`, whether `done` and `ch` are closed, and whether any
involved code panicked (closing a closed channel). -/
structure RangeState (T : Type) where
  delivered : List T
  doneClosed : Bool
  chClosed : Bool
  panicked : Bool
deriving DecidableEq, Repr

/-- State right after `Range()` allocated `ch` and `done`. -/
def RangeState.start (T : Type) : RangeState T :=
  { delivered := [], doneClosed := false, chClosed := false, panicked := false }

/-- The `cancel` closure of `memoryList.Range`: a `select` that is a no-op
when `done` is already closed and otherwise executes `close(done)`. -/
def rangeCancel {T : Type} (s : RangeState T) : RangeState T :=
  if s.doneClosed then s else { s with doneClosed := true }

/-- `close(done)`: panics (sticky flag) when `done` is already closed. -/
def closeDone {T : Type} (s : RangeState T) : RangeState T :=
  if s.doneClosed then { s with panicked := true }
  else { s with doneClosed := true }

/-- `close(ch)`: panics when `ch` is already closed. -/
def closeCh {T : Type} (s : RangeState T) : RangeState T :=
  if s.chClosed then { s with panicked := true }
  else { s with chClosed := true }

/-- The producer goroutine's deferred calls, in LIFO order:
`close(done)` first, then `close(ch)`. -/
def rangeProducerExit {T : Type} (s : RangeState T) : RangeState T :=
  closeCh (closeDone s)

/-- The producer goroutine of `memoryList.Range`: per element, return via
the `<-done` case when `done` is closed, else hand the element off on
`ch`; the deferred closes run on every exit. This is the sequential run
of the goroutine against a fixed cancellation state. -/
def rangeProducer {T : Type} : List T → RangeState T → RangeState T
  | [], s => rangeProducerExit s
  | v :: rest, s =>
      if s.doneClosed then rangeProducerExit s
      else rangeProducer rest { s with delivered := s.delivered ++ [v] }

/-- Result of `os.Open(location)` combined with what a subsequent
`Decoder.Decode` would yield: the three paths the loaders distinguish. -/
inductive OpenRes (D : Type) : Type where
  | notExist : OpenRes D
  | failure (e : GoError) : OpenRes D
  | success (decoded : Except GoError D) : OpenRes D

/-- Outcome record for the filesystem and JSON effects of a load:
what `os.Open` finds and what `os.MkdirAll` would return. -/
structure LoadFs (D : Type) where
  openResult : OpenRes D
  mkdirErr : Option GoError

/-- `strings.HasSuffix`. -/
def hasSuffix (s suffix : String) : Bool :=
  suffix.data.isSuffixOf s.data

/-- The only registered loader suffix. -/
def jsonSuffix : String := ".json"

/-- `loadListFromJsonFile`: missing file runs `os.MkdirAll` on the parent
directory (third component records that the call happened) and returns
the fresh empty list together with MkdirAll's error; any other open
failure or decode failure is wrapped and returned with no collection. -/
def loadListFromJsonFile (T : Type) (location : String)
    (fs : LoadFs (List T)) :
    Option (MemoryList T) × Option GoError × Bool :=
  match fs.openResult with
  | OpenRes.notExist => (some (emptyMemoryList T location), fs.mkdirErr, true)
  | OpenRes.failure e =>
      (none, some (GoError.join (GoError.failedToOpenFile location) e), false)
  | OpenRes.success (Except.error e) =>
      (none, some (GoError.join (GoError.failedToDecodeJsonFile location) e),
       false)
  | OpenRes.success (Except.ok d) =>
      (some { emptyMemoryList T location with data := d }, none, false)

/-- `LoadList`: dispatch on the `.json` suffix, wrap any loader error,
otherwise fail with the unable-to-find-loader error (before touching the
filesystem, hence the `false` MkdirAll flag and a result independent of
`fs`). -/
def LoadList (T : Type) (location : String) (fs : LoadFs (List T)) :
    Option (MemoryList T) × Option GoError × Bool :=
  if hasSuffix location jsonSuffix then
    match loadListFromJsonFile T location fs with
    | (_, some e, mk) =>
        (none, some (GoError.join (GoError.unableToLoadList location) e), mk)
    | (l, none, mk) => (l, none, mk)
  else (none, some (GoError.unableToFindLoader location), false)

/-- `loadMapFromJsonFile`: same shape as the list loader. -/
def loadMapFromJsonFile (T : Type) (location : String)
    (fs : LoadFs (List (String × T))) :
    Option (MemoryMap T) × Option GoError × Bool :=
  match fs.openResult with
  | OpenRes.notExist => (some (emptyMemoryMap T location), fs.mkdirErr, true)
  | OpenRes.failure e =>
      (none, some (GoError.join (GoError.failedToOpenFile location) e), false)
  | OpenRes.success (Except.error e) =>
      (none, some (GoError.join (GoError.failedToDecodeJsonFile location) e),
       false)
  | OpenRes.success (Except.ok d) =>
      (some { emptyMemoryMap T location with data := d }, none, false)

/-- `LoadMap`: dispatch on the `.json` suffix, wrap any loader error,
otherwise fail with the unable-to-find-loader error. -/
def LoadMap (T : Type) (location : String) (fs : LoadFs (List (String × T))) :
    Option (MemoryMap T) × Option GoError × Bool :=
  if hasSuffix location jsonSuffix then
    match loadMapFromJsonFile T location fs with
    | (_, some e, mk) =>
        (none, some (GoError.join (GoError.unableToLoadMap location) e), mk)
    | (m, none, mk) => (m, none, mk)
  else (none, some (GoError.unableToFindLoader location), false)

/-! ## Helper lemmas -/

theorem appendUnique_fst_sched {T : Type} (l : MemoryList T) (v : T)
    (eqf : T → T → Bool) :
    (MemoryList.AppendUnique l v eqf).1.sched = l.sched := by
  unfold MemoryList.AppendUnique
  split <;> rfl

theorem set_fst_sched {T : Type} (l : MemoryList T) (i : Int) (v : T) :
    (MemoryList.Set l i v).1.sched = l.sched := by
  unfold MemoryList.Set
  split <;> rfl

theorem list_save_state {T : Type} (fs : SaveFs) (l : MemoryList T) :
    (MemoryList.Save fs l).1 = MemoryList.RUnlock (MemoryList.RLock l) := by
  rcases fs with ⟨ce, ee⟩
  unfold MemoryList.Save
  cases ce <;> cases ee <;> rfl

theorem map_save_state {T : Type} (fs : SaveFs) (m : MemoryMap T) :
    (MemoryMap.Save fs m).1 = MemoryMap.RUnlock (MemoryMap.RLock m) := by
  rcases fs with ⟨ce, ee⟩
  unfold MemoryMap.Save
  cases ce <;> cases ee <;> rfl

theorem list_runlock_rlock {T : Type} (l : MemoryList T) :
    MemoryList.RUnlock (MemoryList.RLock l) = l := by
  rcases l with ⟨d, loc, ⟨w, r⟩, sc⟩
  simp [MemoryList.RUnlock, MemoryList.RLock, RWLock.rlock, RWLock.runlock]

theorem map_runlock_rlock {T : Type} (m : MemoryMap T) :
    MemoryMap.RUnlock (MemoryMap.RLock m) = m := by
  rcases m with ⟨d, loc, ⟨w, r⟩, sc⟩
  simp [MemoryMap.RUnlock, MemoryMap.RLock, RWLock.rlock, RWLock.runlock]

/-! ## Claim theorems -/

/-- C1: the claim says `Get` reports out-of-range indexes as absent
(`found = false`) without panicking and returns the stored element with
`found = true` in range. The code has the bounds test inverted: on the
singleton list the in-range index 0 yields the zero value with
`found = false`, and on the empty list index 0 takes the out-of-range
branch, whose read `l.data[index]` is a runtime panic (`none`). -/
theorem get_bounds_check_inverted :
    MemoryList.Get
      { data := ["a"], location := "d.json", mtx := RWLock.init
        sched := SchedState.init } 0 = some ("", false) ∧
    MemoryList.Get
      ({ data := [], location := "d.json", mtx := RWLock.init
         sched := SchedState.init } : MemoryList String) 0 = none := by
  constructor <;> rfl

/-- C2: the claim says a successful `Set(i, v)` is observed by a
subsequent `Get(i)` as `(v, true)`. `Set` does succeed and store the
value, but because of the inverted bounds test in `Get` the read-back of
index 0 returns the zero value with `found = false`. -/
theorem set_then_get_not_found :
    MemoryList.Set
      { data := ["a"], location := "d.json", mtx := RWLock.init
        sched := SchedState.init } 0 "b"
      = ({ data := ["b"], location := "d.json", mtx := RWLock.init
           sched := SchedState.init }, none) ∧
    MemoryList.Get
      (MemoryList.Set
        { data := ["a"], location := "d.json", mtx := RWLock.init
          sched := SchedState.init } 0 "b").1 0 = some ("", false) := by
  constructor <;> rfl

/-- C5: the claim says cancellation is a safe no-op that never panics and
lets the producer terminate cleanly. Cancelling before the producer's
first handoff makes the producer goroutine run its deferred
`close(done)` on the channel the cancel action already closed — a
`close of closed channel` panic. The exhaustion path itself is panic-free
and cancel afterwards (or repeated) is a no-op, so the panic is exactly
the cancelled-early case the claim promises to be safe. -/
theorem range_cancel_makes_producer_panic :
    (rangeProducer ["a"] (rangeCancel (RangeState.start String))).panicked
      = true ∧
    (rangeProducer ["a"] (rangeCancel (RangeState.start String))).delivered
      = [] ∧
    rangeCancel (rangeCancel (RangeState.start String))
      = rangeCancel (RangeState.start String) ∧
    (rangeProducer ["a", "b"] (RangeState.start String)).panicked = false ∧
    rangeCancel (rangeProducer ["a", "b"] (RangeState.start String))
      = rangeProducer ["a", "b"] (RangeState.start String) := by
  refine ⟨rfl, rfl, rfl, rfl, rfl⟩

/-- C7: `AppendUnique(v, eq)` appends and returns true exactly when no
existing element is `eq`-equal to `v`, leaves everything unchanged and
returns false otherwise, and a second call with a value `eq`-equal to the
one just appended returns false with the length unchanged. -/
theorem appendUnique_spec :
    ∀ (T : Type) (l : MemoryList T) (v : T) (equal : T → T → Bool),
    ((l.data.any fun x => equal x v) = true →
        MemoryList.AppendUnique l v equal = (l, false)) ∧
    ((l.data.any fun x => equal x v) = false →
        (MemoryList.AppendUnique l v equal).2 = true ∧
        (MemoryList.AppendUnique l v equal).1.data = l.data ++ [v] ∧
        (MemoryList.AppendUnique l v equal).1.Len = l.Len + 1 ∧
        (MemoryList.AppendUnique l v equal).1.location = l.location ∧
        (MemoryList.AppendUnique l v equal).1.sched = l.sched ∧
        (∀ w, equal v w = true →
            MemoryList.AppendUnique (MemoryList.AppendUnique l v equal).1 w equal
              = ((MemoryList.AppendUnique l v equal).1, false))) := by
  intro T l v equal
  constructor
  · intro h
    simp [MemoryList.AppendUnique, h]
  · intro h
    refine ⟨?_, ?_, ?_, ?_, ?_, ?_⟩ <;>
      simp [MemoryList.AppendUnique, h, MemoryList.Len]
    intro w hw
    simp [List.any_append, hw]

/-- C7 witness: on the concrete list `["a"]` with string equality, the
first `AppendUnique "b"` appends (result true), the second call with
`"b"` again is rejected. -/
theorem appendUnique_spec_witness :
    (MemoryList.AppendUnique
      { data := ["a"], location := "d.json", mtx := RWLock.init
        sched := SchedState.init } "b" (fun a b => a == b)).2 = true ∧
    MemoryList.AppendUnique
      (MemoryList.AppendUnique
        { data := ["a"], location := "d.json", mtx := RWLock.init
          sched := SchedState.init } "b" (fun a b => a == b)).1 "b"
      (fun a b => a == b)
      = ((MemoryList.AppendUnique
          { data := ["a"], location := "d.json", mtx := RWLock.init
            sched := SchedState.init } "b" (fun a b => a == b)).1, false) := by
  have h := appendUnique_spec String
    { data := ["a"], location := "d.json", mtx := RWLock.init
      sched := SchedState.init } "b" (fun a b => a == b)
  have h2 := h.2 (by decide)
  exact ⟨h2.1, h2.2.2.2.2.2 "b" (by decide)⟩

/-- C10: a location without the `.json` suffix makes both loaders fail
with the unable-to-find-loader error, a nil collection, and no
filesystem activity: the result does not depend on the filesystem
outcome record at all and `os.MkdirAll` is never invoked. -/
theorem load_unknown_suffix :
    ∀ (T : Type) (location : String) (fsL : LoadFs (List T))
      (fsM : LoadFs (List (String × T))),
    hasSuffix location jsonSuffix = false →
    LoadList T location fsL
      = (none, some (GoError.unableToFindLoader location), false) ∧
    LoadMap T location fsM
      = (none, some (GoError.unableToFindLoader location), false) := by
  intro T location fsL fsM h
  constructor
  · simp [LoadList, h]
  · simp [LoadMap, h]

/-- C10 witness: `LoadList`/`LoadMap` at the concrete location
`data.txt` with a would-be-missing file. -/
theorem load_unknown_suffix_witness :
    LoadList Nat "data.txt" { openResult := OpenRes.notExist, mkdirErr := none }
      = (none, some (GoError.unableToFindLoader "data.txt"), false) ∧
    LoadMap Nat "data.txt" { openResult := OpenRes.notExist, mkdirErr := none }
      = (none, some (GoError.unableToFindLoader "data.txt"), false) :=
  load_unknown_suffix Nat "data.txt"
    { openResult := OpenRes.notExist, mkdirErr := none }
    { openResult := OpenRes.notExist, mkdirErr := none } (by decide)

/-- C6: loading a `.json` location whose file does not exist bootstraps
the parent directory (the MkdirAll flag is true) and returns the empty
collection with a nil error; a MkdirAll failure is returned as an error;
any other open failure or decode failure is returned as an error with no
collection (and no directory bootstrap). Both the list and the map
loader behave this way. -/
theorem load_missing_file_bootstrap :
    ∀ (T : Type) (location : String) (fsL : LoadFs (List T))
      (fsM : LoadFs (List (String × T))) (e : GoError),
    hasSuffix location jsonSuffix = true →
    (fsL.openResult = OpenRes.notExist → fsL.mkdirErr = none →
        LoadList T location fsL
          = (some (emptyMemoryList T location), none, true)) ∧
    (fsL.openResult = OpenRes.notExist → fsL.mkdirErr = some e →
        LoadList T location fsL
          = (none, some (GoError.join (GoError.unableToLoadList location) e),
             true)) ∧
    (fsL.openResult = OpenRes.failure e →
        LoadList T location fsL
          = (none,
             some (GoError.join (GoError.unableToLoadList location)
               (GoError.join (GoError.failedToOpenFile location) e)),
             false)) ∧
    (fsL.openResult = OpenRes.success (Except.error e) →
        LoadList T location fsL
          = (none,
             some (GoError.join (GoError.unableToLoadList location)
               (GoError.join (GoError.failedToDecodeJsonFile location) e)),
             false)) ∧
    (fsM.openResult = OpenRes.notExist → fsM.mkdirErr = none →
        LoadMap T location fsM
          = (some (emptyMemoryMap T location), none, true)) ∧
    (fsM.openResult = OpenRes.notExist → fsM.mkdirErr = some e →
        LoadMap T location fsM
          = (none, some (GoError.join (GoError.unableToLoadMap location) e),
             true)) ∧
    (fsM.openResult = OpenRes.failure e →
        LoadMap T location fsM
          = (none,
             some (GoError.join (GoError.unableToLoadMap location)
               (GoError.join (GoError.failedToOpenFile location) e)),
             false)) ∧
    (fsM.openResult = OpenRes.success (Except.error e) →
        LoadMap T location fsM
          = (none,
             some (GoError.join (GoError.unableToLoadMap location)
               (GoError.join (GoError.failedToDecodeJsonFile location) e)),
             false)) := by
  intro T location fsL fsM e hsuf
  refine ⟨?_, ?_, ?_, ?_, ?_, ?_, ?_, ?_⟩ <;> intros ho <;>
    first
      | (intro hmk
         simp [LoadList, LoadMap, loadListFromJsonFile, loadMapFromJsonFile,
               hsuf, ho, hmk])
      | simp [LoadList, LoadMap, loadListFromJsonFile, loadMapFromJsonFile,
              hsuf, ho]

/-- C6 witness: loading the concrete missing location `data.json`
(MkdirAll succeeding) yields the empty list and the empty map, no error,
directory bootstrapped. -/
theorem load_missing_file_bootstrap_witness :
    LoadList Nat "data.json" { openResult := OpenRes.notExist, mkdirErr := none }
      = (some (emptyMemoryList Nat "data.json"), none, true) ∧
    LoadMap Nat "data.json" { openResult := OpenRes.notExist, mkdirErr := none }
      = (some (emptyMemoryMap Nat "data.json"), none, true) := by
  have h := load_missing_file_bootstrap Nat "data.json"
    { openResult := OpenRes.notExist, mkdirErr := none }
    { openResult := OpenRes.notExist, mkdirErr := none }
    GoError.indexOutOfRange (by decide)
  exact ⟨h.1 rfl rfl, h.2.2.2.2.1 rfl rfl⟩

/-- C4: `Unlock` releases the exclusive lock and runs the save scheduler
(`notifyChanged`) on the scheduler state; `RUnlock` releases the shared
lock and leaves every scheduler field untouched; and no other collection
operation — lock/rlock, the list and map mutators, or `Save` — changes
the scheduler state, so the mutating unlock is the only channel into the
scheduler. -/
theorem unlock_notifies_runlock_does_not :
    ∀ (T : Type) (l : MemoryList T) (m : MemoryMap T) (now : Nat) (v : T)
      (eqf : T → T → Bool) (i : Int) (d : List T) (k : String)
      (dm : List (String × T)) (fs : SaveFs),
    (MemoryList.Unlock now l).sched = notifyChanged now l.sched ∧
    (MemoryList.Unlock now l).mtx.writer = false ∧
    (MemoryList.Unlock now l).data = l.data ∧
    (MemoryMap.Unlock now m).sched = notifyChanged now m.sched ∧
    (MemoryMap.Unlock now m).mtx.writer = false ∧
    (MemoryMap.Unlock now m).data = m.data ∧
    (MemoryList.RUnlock l).sched = l.sched ∧
    (MemoryList.RUnlock l).mtx.readers = l.mtx.readers - 1 ∧
    (MemoryList.RUnlock l).mtx.writer = l.mtx.writer ∧
    (MemoryList.RUnlock l).data = l.data ∧
    (MemoryMap.RUnlock m).sched = m.sched ∧
    (MemoryMap.RUnlock m).mtx.readers = m.mtx.readers - 1 ∧
    (MemoryMap.RUnlock m).mtx.writer = m.mtx.writer ∧
    (MemoryMap.RUnlock m).data = m.data ∧
    (MemoryList.Lock l).sched = l.sched ∧
    (MemoryList.RLock l).sched = l.sched ∧
    (MemoryList.Append l v).sched = l.sched ∧
    (MemoryList.AppendUnique l v eqf).1.sched = l.sched ∧
    (MemoryList.Set l i v).1.sched = l.sched ∧
    (MemoryList.Overwrite l d).sched = l.sched ∧
    (MemoryList.Save fs l).1.sched = l.sched ∧
    (MemoryMap.Lock m).sched = m.sched ∧
    (MemoryMap.RLock m).sched = m.sched ∧
    (MemoryMap.Set m k v).sched = m.sched ∧
    (MemoryMap.Overwrite m dm).sched = m.sched ∧
    (MemoryMap.Save fs m).1.sched = m.sched := by
  intro T l m now v eqf i d k dm fs
  refine ⟨rfl, rfl, rfl, rfl, rfl, rfl, rfl, rfl, rfl, rfl, rfl, rfl, rfl, rfl,
          rfl, rfl, rfl, appendUnique_fst_sched l v eqf, set_fst_sched l i v,
          rfl, ?_, rfl, rfl, rfl, rfl, ?_⟩
  · rw [list_save_state, list_runlock_rlock]
  · rw [map_save_state, map_runlock_rlock]

/-- C9: `Save` works under the shared lock only — its net state effect is
exactly `RUnlock (RLock s)`, which is the identity on the store — so a
save, explicit or scheduler-triggered, never touches the scheduler
fields, never re-arms a timer and never starts a burst. -/
theorem save_only_shared_lock_no_rearm :
    ∀ (T : Type) (l : MemoryList T) (m : MemoryMap T) (fs : SaveFs),
    (MemoryList.Save fs l).1 = MemoryList.RUnlock (MemoryList.RLock l) ∧
    MemoryList.RUnlock (MemoryList.RLock l) = l ∧
    (MemoryList.Save fs l).1.sched = l.sched ∧
    (MemoryList.Save fs l).1.data = l.data ∧
    (MemoryList.Save fs l).1.mtx = l.mtx ∧
    (MemoryMap.Save fs m).1 = MemoryMap.RUnlock (MemoryMap.RLock m) ∧
    MemoryMap.RUnlock (MemoryMap.RLock m) = m ∧
    (MemoryMap.Save fs m).1.sched = m.sched ∧
    (MemoryMap.Save fs m).1.data = m.data ∧
    (MemoryMap.Save fs m).1.mtx = m.mtx := by
  intro T l m fs
  have hl := list_save_state fs l
  have hm := map_save_state fs m
  have hl2 := list_runlock_rlock l
  have hm2 := map_runlock_rlock m
  refine ⟨hl, hl2, ?_, ?_, ?_, hm, hm2, ?_, ?_, ?_⟩ <;>
    simp [hl, hm, hl2, hm2]

/-! ## Scheduler lemmas -/

theorem ensureOnce_of_some {s : SchedState} {o : Nat} (h : s.saveOnce = some o) :
    ensureOnce s = (o, s) := by
  simp [ensureOnce, h]

theorem ensureOnce_of_none {s : SchedState} (h : s.saveOnce = none) :
    ensureOnce s
      = (s.nextOnce,
         { s with saveOnce := some s.nextOnce, nextOnce := s.nextOnce + 1 }) := by
  simp [ensureOnce, h]

theorem notifyChanged_usedOnces (now : Nat) (s : SchedState) :
    (notifyChanged now s).usedOnces = s.usedOnces := by
  rcases s with ⟨st, mst, so, no, uo, sc⟩
  cases so <;> cases mst <;> cases st <;> try rfl
  all_goals (rename_i t; rcases t with ⟨a, b, p⟩; cases p <;> rfl)

theorem notifyChanged_saveCount (now : Nat) (s : SchedState) :
    (notifyChanged now s).saveCount = s.saveCount := by
  rcases s with ⟨st, mst, so, no, uo, sc⟩
  cases so <;> cases mst <;> cases st <;> try rfl
  all_goals (rename_i t; rcases t with ⟨a, b, p⟩; cases p <;> rfl)

/-- A burst in flight: a once is allocated and both timer fields hold
timers whose callbacks captured exactly that once. -/
def BurstInv (o : Nat) (s : SchedState) : Prop :=
  s.saveOnce = some o ∧
  (∃ t, s.saveTimer = some t ∧ t.onceId = o) ∧
  (∃ t2, s.maxSaveTimer = some t2 ∧ t2.onceId = o)

theorem notifyChanged_preserves_burstInv (now : Nat) {o : Nat} {s : SchedState}
    (h : BurstInv o s) : BurstInv o (notifyChanged now s) := by
  obtain ⟨h1, ⟨t, ht, hto⟩, ⟨t2, ht2, ht2o⟩⟩ := h
  rcases s with ⟨st, mst, so, no, uo, sc⟩
  simp only at h1 ht ht2
  subst h1; subst ht; subst ht2
  rcases t with ⟨a, b, p⟩
  simp only at hto
  subst hto
  cases p <;>
    simp [BurstInv, notifyChanged, ensureOnce, armDebounce, armMaxDelay, ht2o]

theorem burstNotify_preserves_burstInv (ts : List Nat) {o : Nat}
    {s : SchedState} (h : BurstInv o s) : BurstInv o (burstNotify ts s) := by
  induction ts generalizing s with
  | nil => exact h
  | cons a ts ih => exact ih (notifyChanged_preserves_burstInv a h)

theorem burstNotify_usedOnces (ts : List Nat) (s : SchedState) :
    (burstNotify ts s).usedOnces = s.usedOnces := by
  induction ts generalizing s with
  | nil => rfl
  | cons a ts ih =>
      rw [show burstNotify (a :: ts) s = burstNotify ts (notifyChanged a s)
            from rfl,
          ih, notifyChanged_usedOnces]

theorem burstNotify_saveCount (ts : List Nat) (s : SchedState) :
    (burstNotify ts s).saveCount = s.saveCount := by
  induction ts generalizing s with
  | nil => rfl
  | cons a ts ih =>
      rw [show burstNotify (a :: ts) s = burstNotify ts (notifyChanged a s)
            from rfl,
          ih, notifyChanged_saveCount]

/-- C3: a burst started from idle (all three scheduler fields nil, the
next once object fresh) arms both the debounce and the max-delay timer
with callbacks capturing the same one-shot guard, and keeps that guard
shared across every further `notifyChanged` of the burst; when the first
of the two deadlines elapses, `Save` runs exactly once and the scheduler
returns to idle; the later elapse of the other deadline of the same
burst changes nothing. -/
theorem scheduler_burst_saves_exactly_once :
    ∀ (s : SchedState) (now : Nat) (times : List Nat),
    s.saveTimer = none → s.maxSaveTimer = none → s.saveOnce = none →
    s.usedOnces.contains s.nextOnce = false →
    BurstInv s.nextOnce (burstNotify times (notifyChanged now s)) ∧
    (fireCallback s.nextOnce
        (burstNotify times (notifyChanged now s))).saveCount
      = (burstNotify times (notifyChanged now s)).saveCount + 1 ∧
    (fireCallback s.nextOnce
        (burstNotify times (notifyChanged now s))).saveTimer = none ∧
    (fireCallback s.nextOnce
        (burstNotify times (notifyChanged now s))).maxSaveTimer = none ∧
    (fireCallback s.nextOnce
        (burstNotify times (notifyChanged now s))).saveOnce = none ∧
    fireCallback s.nextOnce
        (fireCallback s.nextOnce (burstNotify times (notifyChanged now s)))
      = fireCallback s.nextOnce (burstNotify times (notifyChanged now s)) := by
  intro s now times h1 h2 h3 h4
  have base : BurstInv s.nextOnce (notifyChanged now s) := by
    simp [BurstInv, notifyChanged, ensureOnce, armDebounce, armMaxDelay,
          h1, h2, h3]
  have inv := burstNotify_preserves_burstInv times base
  have hused :
      (burstNotify times (notifyChanged now s)).usedOnces.contains s.nextOnce
        = false := by
    rw [burstNotify_usedOnces, notifyChanged_usedOnces]
    exact h4
  have hmem :
      s.nextOnce ∉ (burstNotify times (notifyChanged now s)).usedOnces := by
    simpa using hused
  refine ⟨inv, ?_, ?_, ?_, ?_, ?_⟩ <;> simp [fireCallback, hmem]

/-- C3 witness: the concrete burst `notifyChanged` at time 0 then at
times 1 and 2, starting from the zero scheduler state: firing the shared
guard saves once, firing it again is a no-op. -/
theorem scheduler_burst_saves_exactly_once_witness :
    (fireCallback 0
        (burstNotify [1, 2] (notifyChanged 0 SchedState.init))).saveCount
      = (burstNotify [1, 2] (notifyChanged 0 SchedState.init)).saveCount + 1 ∧
    fireCallback 0
        (fireCallback 0 (burstNotify [1, 2] (notifyChanged 0 SchedState.init)))
      = fireCallback 0 (burstNotify [1, 2] (notifyChanged 0 SchedState.init)) := by
  have h := scheduler_burst_saves_exactly_once SchedState.init 0 [1, 2]
    rfl rfl rfl rfl
  exact ⟨h.2.1, h.2.2.2.2.2⟩

/-- C8: `notifyChanged` during an active burst (max-delay timer field
non-nil) leaves the max-delay timer field exactly as it was and ends with
a pending debounce timer due at `now + debounceDelay`: a still-pending
debounce timer is reset in place, while one that already fired or is
firing is replaced by a fresh timer carrying the burst's once; the used
guards, the save count and an allocated once are all untouched. -/
theorem notifyChanged_bursting_frame :
    ∀ (s : SchedState) (now : Nat) (tm : Timer),
    s.maxSaveTimer = some tm →
    (notifyChanged now s).maxSaveTimer = some tm ∧
    (∃ t, (notifyChanged now s).saveTimer = some t ∧ t.pending = true ∧
        t.deadline = now + debounceDelay) ∧
    (∀ t, s.saveTimer = some t → t.pending = true →
        (notifyChanged now s).saveTimer
          = some { t with deadline := now + debounceDelay }) ∧
    (∀ t o, s.saveTimer = some t → t.pending = false → s.saveOnce = some o →
        (notifyChanged now s).saveTimer = some ⟨o, now + debounceDelay, true⟩) ∧
    (notifyChanged now s).usedOnces = s.usedOnces ∧
    (notifyChanged now s).saveCount = s.saveCount ∧
    (∀ o, s.saveOnce = some o → (notifyChanged now s).saveOnce = some o) := by
  intro s now tm h
  rcases s with ⟨st, mst, so, no, uo, sc⟩
  simp only at h
  subst h
  cases so <;> cases st <;> try
    simp [notifyChanged, ensureOnce, armDebounce, armMaxDelay]
  all_goals (rename_i t; rcases t with ⟨a, b, p⟩; cases p <;>
    simp [notifyChanged, ensureOnce, armDebounce, armMaxDelay])

/-- C8 witness: a concrete bursting state (both timers armed at once 0)
notified again at time 5: the max-delay timer is untouched and the
debounce timer is pending and due at `5 + debounceDelay`. -/
theorem notifyChanged_bursting_frame_witness :
    (notifyChanged 5
        { saveTimer := some ⟨0, 2, true⟩, maxSaveTimer := some ⟨0, 10, true⟩
          saveOnce := some 0, nextOnce := 1, usedOnces := []
          saveCount := 0 }).maxSaveTimer = some ⟨0, 10, true⟩ ∧
    (∃ t,
      (notifyChanged 5
          { saveTimer := some ⟨0, 2, true⟩, maxSaveTimer := some ⟨0, 10, true⟩
            saveOnce := some 0, nextOnce := 1, usedOnces := []
            saveCount := 0 }).saveTimer = some t ∧ t.pending = true ∧
      t.deadline = 5 + debounceDelay) := by
  have h := notifyChanged_bursting_frame
    { saveTimer := some ⟨0, 2, true⟩, maxSaveTimer := some ⟨0, 10, true⟩
      saveOnce := some 0, nextOnce := 1, usedOnces := [], saveCount := 0 }
    5 ⟨0, 10, true⟩ rfl
  exact ⟨h.1, h.2.1⟩
